import Mathlib

/-!
Verification of the Profexa tutoring application (files `ai_teacher_app.py`
and `profexa.py`).  The development shallowly embeds the persistence layer
(two SQLite tables, modelled as lists of rows), the password hashing
(a full executable SHA-256 over byte lists), and the pure session-state
bookkeeping (login handling, lesson progress, quiz scoring).  Calls to the
external generative-model endpoint are modelled by an `Option` parameter:
`some x` is a successful model call whose output parsed to `x`, `none` is
any exception raised inside the corresponding `try` block.
-/

set_option maxRecDepth 100000

namespace Profexa

/-! ## SHA-256, executable, over lists of bytes (each a `Nat < 256`).

Embeds `hashlib.sha256(...).hexdigest()` as used by `hash_password` in both
source files.  Words are `Nat` values kept below `2 ^ 32` by explicit
reduction. -/

/-- Reduce a natural number to a 32-bit word. -/
def w32 (n : Nat) : Nat := n % 4294967296

/-- Right rotation of a 32-bit word by `n` bits. -/
def rotr (n x : Nat) : Nat := w32 ((x >>> n) ||| (x <<< (32 - n)))

/-- The 64 SHA-256 round constants, in decimal. -/
def sha256K : List Nat :=
  [1116352408, 1899447441, 3049323471, 3921009573, 961987163,
   1508970993, 2453635748, 2870763221, 3624381080, 310598401,
   607225278, 1426881987, 1925078388, 2162078206, 2614888103,
   3248222580, 3835390401, 4022224774, 264347078, 604807628,
   770255983, 1249150122, 1555081692, 1996064986, 2554220882,
   2821834349, 2952996808, 3210313671, 3336571891, 3584528711,
   113926993, 338241895, 666307205, 773529912, 1294757372,
   1396182291, 1695183700, 1986661051, 2177026350, 2456956037,
   2730485921, 2820302411, 3259730800, 3345764771, 3516065817,
   3600352804, 4094571909, 275423344, 430227734, 506948616,
   659060556, 883997877, 958139571, 1322822218, 1537002063,
   1747873779, 1955562222, 2024104815, 2227730452, 2361852424,
   2428436474, 2756734187, 3204031479, 3329325298]

/-- The SHA-256 initial hash value, in decimal. -/
def sha256H0 : List Nat :=
  [1779033703, 3144134277, 1013904242, 2773480762, 1359893119,
   2600822924, 528734635, 1541459225]

/-- Working state of the SHA-256 compression function. -/
structure Sha8 where
  a : Nat
  b : Nat
  c : Nat
  d : Nat
  e : Nat
  f : Nat
  g : Nat
  h : Nat

/-- Extend a 16-word block to the 64-word message schedule. -/
def extendW (block : List Nat) : Array Nat :=
  (List.range 48).foldl (fun arr i =>
    let w15 := arr.getD (i + 1) 0
    let w2 := arr.getD (i + 14) 0
    let s0 := (rotr 7 w15) ^^^ (rotr 18 w15) ^^^ (w15 >>> 3)
    let s1 := (rotr 17 w2) ^^^ (rotr 19 w2) ^^^ (w2 >>> 10)
    arr.push (w32 (arr.getD i 0 + s0 + arr.getD (i + 9) 0 + s1))) block.toArray

/-- One round of the SHA-256 compression function. -/
def compressStep (W : Array Nat) (s : Sha8) (i : Nat) : Sha8 :=
  let S1 := (rotr 6 s.e) ^^^ (rotr 11 s.e) ^^^ (rotr 25 s.e)
  let ch := (s.e &&& s.f) ^^^ ((4294967295 ^^^ s.e) &&& s.g)
  let temp1 := w32 (s.h + S1 + ch + sha256K.getD i 0 + W.getD i 0)
  let S0 := (rotr 2 s.a) ^^^ (rotr 13 s.a) ^^^ (rotr 22 s.a)
  let maj := (s.a &&& s.b) ^^^ (s.a &&& s.c) ^^^ (s.b &&& s.c)
  let temp2 := w32 (S0 + maj)
  ⟨w32 (temp1 + temp2), s.a, s.b, s.c, w32 (s.d + temp1), s.e, s.f, s.g⟩

/-- Process one 16-word block, updating the running hash. -/
def processBlock (hs : List Nat) (block : List Nat) : List Nat :=
  let W := extendW block
  let init : Sha8 := ⟨hs.getD 0 0, hs.getD 1 0, hs.getD 2 0, hs.getD 3 0,
                      hs.getD 4 0, hs.getD 5 0, hs.getD 6 0, hs.getD 7 0⟩
  let s := (List.range 64).foldl (compressStep W) init
  [w32 (hs.getD 0 0 + s.a), w32 (hs.getD 1 0 + s.b), w32 (hs.getD 2 0 + s.c),
   w32 (hs.getD 3 0 + s.d), w32 (hs.getD 4 0 + s.e), w32 (hs.getD 5 0 + s.f),
   w32 (hs.getD 6 0 + s.g), w32 (hs.getD 7 0 + s.h)]

/-- SHA-256 padding: append `0x80`, zeros, and the 64-bit big-endian bit length. -/
def sha256pad (msg : List Nat) : List Nat :=
  let L := msg.length
  msg ++ [128] ++ List.replicate ((119 - L % 64) % 64) 0 ++
    (List.range 8).map (fun i => ((8 * L) >>> (8 * (7 - i))) % 256)

/-- Group a list of bytes into 32-bit big-endian words. -/
def toWords : List Nat → List Nat
  | a :: b :: c :: d :: rest => (a * 16777216 + b * 65536 + c * 256 + d) :: toWords rest
  | _ => []

/-- Split a word list into 16-word blocks (fuel-based structural recursion). -/
def chunksAux : Nat → List Nat → List (List Nat)
  | 0, _ => []
  | _, [] => []
  | fuel + 1, w :: ws => ((w :: ws).take 16) :: chunksAux fuel ((w :: ws).drop 16)

/-- Split a word list into 16-word blocks. -/
def chunks (ws : List Nat) : List (List Nat) := chunksAux ws.length ws

/-- SHA-256 of a byte list, as a 32-byte list. -/
def sha256 (msg : List Nat) : List Nat :=
  let blocks := chunks (toWords (sha256pad msg))
  let hs := blocks.foldl processBlock sha256H0
  (hs.map (fun w => [(w >>> 24) % 256, (w >>> 16) % 256, (w >>> 8) % 256, w % 256])).flatten

/-- Lower-case hexadecimal digit for `n < 16`. -/
def hexChar (n : Nat) : Char := if n < 10 then Char.ofNat (48 + n) else Char.ofNat (87 + n)

/-- Two-character lower-case hexadecimal rendering of a byte. -/
def byteToHex (b : Nat) : List Char := [hexChar (b / 16), hexChar (b % 16)]

/-- Hex digest of SHA-256, mirroring `hashlib.sha256(bytes).hexdigest()`. -/
def sha256hex (msg : List Nat) : String := String.mk ((sha256 msg).map byteToHex).flatten

/-- UTF-8 encoding of a single character as a list of bytes. -/
def utf8EncodeChar (c : Char) : List Nat :=
  let n := c.toNat
  if n < 128 then [n]
  else if n < 2048 then [192 ||| (n >>> 6), 128 ||| (n &&& 63)]
  else if n < 65536 then
    [224 ||| (n >>> 12), 128 ||| ((n >>> 6) &&& 63), 128 ||| (n &&& 63)]
  else
    [240 ||| (n >>> 18), 128 ||| ((n >>> 12) &&& 63), 128 ||| ((n >>> 6) &&& 63), 128 ||| (n &&& 63)]

/-- UTF-8 encoding of a string, mirroring Python `str.encode()`. -/
def utf8Encode (s : String) : List Nat := (s.toList.map utf8EncodeChar).flatten

/-- Embeds `hash_password` (identical in both files): the hex digest of a
single unsalted SHA-256 of the UTF-8 encoded password. -/
def hash_password (password : String) : String := sha256hex (utf8Encode password)

/-- Embeds `verify_password` (identical in both files). -/
def verify_password (password hashed : String) : Bool := hash_password password == hashed

/-- Validation of the SHA-256 embedding against the standard test vector for
the empty message. -/
theorem sha256hex_empty_vector :
    sha256hex (utf8Encode "") =
      "e3b0c44298fc1c149afbf4c8996fb92427ae41e4649b934ca495991b7852b855" := by
  decide

/-- Validation of the SHA-256 embedding against the standard test vector for
the message abc. -/
theorem sha256hex_abc_vector :
    sha256hex (utf8Encode "abc") =
      "ba7816bf8f01cfea414140de5dae2223b00361a396177a9cb410ff61f20015ad" := by
  decide

/-! ## The relational store.

Two tables, `users` and `learning_history`, modelled as lists of rows in
insertion (rowid) order, plus the next AUTOINCREMENT ids.  Timestamps are
abstract `Nat` ticks; `CURRENT_TIMESTAMP` at a call is the `now` parameter. -/

/-- A row of the `users` table. -/
structure UserRow where
  id : Int
  username : String
  password_hash : String
deriving DecidableEq

/-- A row of the `learning_history` table.  `chat_history` holds the JSON
text stored in the column (`json.dumps` output). -/
structure SessionRow where
  id : Int
  user_id : Int
  topic : String
  subtopic : String
  learning_level : String
  mode : String
  progress : Int
  chat_history : String
  quiz_score : Int
  quiz_total : Int
  started_at : Nat
  last_accessed : Nat
deriving DecidableEq

/-- The SQLite database `ai_teacher.db`. -/
structure DB where
  users : List UserRow
  learning_history : List SessionRow
  next_user_id : Int
  next_session_id : Int
deriving DecidableEq

/-- The logical key of a `learning_history` row. -/
def sessionKey (r : SessionRow) : Int × String × String × String :=
  (r.user_id, r.topic, r.subtopic, r.learning_level)

/-- The Boolean row filter of the key lookup
`SELECT id FROM learning_history WHERE user_id = ? AND topic = ? AND subtopic = ? AND learning_level = ?`. -/
def matchesKey (uid : Int) (t s l : String) (r : SessionRow) : Bool :=
  r.user_id == uid && r.topic == t && r.subtopic == s && r.learning_level == l

/-- Embeds `create_user` (identical in both files): `INSERT INTO users`
succeeds and returns `True` unless the UNIQUE constraint on `username` is
violated, in which case the `sqlite3.IntegrityError` handler returns `False`
and the table is untouched. -/
def create_user (db : DB) (username password : String) : Bool × DB :=
  if db.users.any (fun u => u.username == username) then
    (false, db)
  else
    (true, { db with
             users := db.users ++ [⟨db.next_user_id, username, hash_password password⟩],
             next_user_id := db.next_user_id + 1 })

/-- Embeds `authenticate_user` (identical in both files): fetch the first
row with the given username; return its id when the stored hash verifies,
`-1` otherwise.  The function only reads the database. -/
def authenticate_user (db : DB) (username password : String) : Int :=
  match db.users.find? (fun u => u.username == username) with
  | some u => if verify_password password u.password_hash then u.id else -1
  | none => -1

/-- The fields written by the UPDATE branch of `save_learning_session`:
`SET progress = ?, chat_history = ?, quiz_score = ?, quiz_total = ?,
last_accessed = CURRENT_TIMESTAMP`. -/
def updRow (now : Nat) (progress : Int) (ch : String) (qsc qtt : Int) (r : SessionRow) : SessionRow :=
  { r with progress := progress, chat_history := ch, quiz_score := qsc,
           quiz_total := qtt, last_accessed := now }

/-- The row built by the INSERT branch of `save_learning_session`; both
timestamp columns default to `CURRENT_TIMESTAMP`. -/
def mkSession (id : Int) (now : Nat) (uid : Int) (t s l m : String) (p : Int)
    (ch : String) (qsc qtt : Int) : SessionRow :=
  ⟨id, uid, t, s, l, m, p, ch, qsc, qtt, now, now⟩

/-- Embeds `save_learning_session` of `profexa.py` (no guest guard): look up
the row with the same `(user_id, topic, subtopic, learning_level)`; update it
in place when found, otherwise insert a fresh row. -/
def profexa_save_learning_session (db : DB) (now : Nat) (user_id : Int)
    (topic subtopic learning_level mode : String) (progress : Int)
    (chat_history : String) (quiz_score quiz_total : Int) : DB :=
  match db.learning_history.find? (matchesKey user_id topic subtopic learning_level) with
  | some existing =>
      { db with learning_history := db.learning_history.map (fun r =>
          if r.id = existing.id then
            updRow now progress chat_history quiz_score quiz_total r
          else r) }
  | none =>
      { db with
        learning_history := db.learning_history ++
          [mkSession db.next_session_id now user_id topic subtopic learning_level mode
            progress chat_history quiz_score quiz_total],
        next_session_id := db.next_session_id + 1 }

/-- Embeds `save_learning_session` of `ai_teacher_app.py`: identical to the
`profexa.py` version except for the leading guard
`if not user_id: return  # Do not save for guest users`. -/
def save_learning_session (db : DB) (now : Nat) (user_id : Int)
    (topic subtopic learning_level mode : String) (progress : Int)
    (chat_history : String) (quiz_score quiz_total : Int) : DB :=
  if user_id = 0 then db
  else profexa_save_learning_session db now user_id topic subtopic learning_level mode
    progress chat_history quiz_score quiz_total

/-- Embeds `delete_learning_session` (`ai_teacher_app.py` only):
`DELETE FROM learning_history WHERE id = ?`, returning `True`.  The `except`
branch (operational sqlite failures) is outside the pure model. -/
def delete_learning_session (db : DB) (session_id : Int) : Bool × DB :=
  (true, { db with
           learning_history := db.learning_history.filter (fun r => !(r.id == session_id)) })

/-! ## Login form handling. -/

/-- The authentication-related part of the Streamlit session state. -/
structure SessionAuth where
  authenticated : Bool
  user_id : Option Int
  username : String
deriving DecidableEq

/-- Embeds the login-form submit handler of `show_login_page` (both files):
with both fields non-empty (Python string truthiness) the result of
`authenticate_user` is tested with `if user_id:` (integer truthiness, true
for every nonzero value including `-1`); on that branch the session becomes
authenticated with that value stored as `user_id`. -/
def login_submit (db : DB) (st : SessionAuth) (username password : String) : SessionAuth :=
  if username ≠ "" ∧ password ≠ "" then
    let uid := authenticate_user db username password
    if uid ≠ 0 then ⟨true, some uid, username⟩ else st
  else st

/-! ## Model-backed generators.

Each generator wraps a `model.generate_content` call and JSON parsing in a
`try` block.  The interaction is embedded as an `Option` argument: `some x`
means the whole `try` body succeeded and parsed to `x`; `none` means some
exception was raised inside it, sending control to the `except` branch.
Prompt construction is pure string templating and plays no role in the
claims, so it is elided. -/

/-- The fallback subtopic dictionary shared by both files, including the
`.get(learning_level, fallback["middle"])` default. -/
def fallback_subtopics (learning_level : String) : List String :=
  if learning_level = "elementary" then
    ["Basic Concepts", "Simple Examples", "Fun Activities", "Easy Practice", "Real World Uses"]
  else if learning_level = "middle" then
    ["Building Skills", "Practical Applications", "Problem Solving", "Critical Thinking",
     "Hands-on Projects"]
  else if learning_level = "high" then
    ["Advanced Concepts", "Detailed Analysis", "Complex Applications",
     "Theoretical Understanding", "Career Preparation"]
  else if learning_level = "adult" then
    ["Professional Skills", "Advanced Techniques", "Industry Applications",
     "Specialized Knowledge", "Practical Implementation"]
  else
    ["Building Skills", "Practical Applications", "Problem Solving", "Critical Thinking",
     "Hands-on Projects"]

/-- Embeds `generate_popular_subtopics` of `ai_teacher_app.py`: on success
the first five parsed entries (`subtopics[:5]`), on any exception the
fallback literal for the level. -/
def generate_popular_subtopics (modelOutput : Option (List String))
    (learning_level : String) : List String :=
  match modelOutput with
  | some subtopics => subtopics.take 5
  | none => fallback_subtopics learning_level

/-- Embeds `generate_popular_subtopics` of `profexa.py`: same success path,
but the fallback list is passed through `random.shuffle` before being
returned.  The shuffle outcome is an oracle argument `shuffle`; every run of
`random.shuffle` realises some permutation. -/
def profexa_generate_popular_subtopics (modelOutput : Option (List String))
    (shuffle : List String → List String) (learning_level : String) : List String :=
  match modelOutput with
  | some subtopics => subtopics.take 5
  | none => shuffle (fallback_subtopics learning_level)

/-- A parsed quiz question record. -/
structure QuizQuestion where
  question : String
  options : List String
  correct_answer : Nat
  explanation : String
deriving DecidableEq

/-- The single-question fallback of `generate_quiz_questions` in
`ai_teacher_app.py`. -/
def quiz_fallback (subtopic : String) : List QuizQuestion :=
  [⟨"What is the main concept of " ++ subtopic ++ "?",
    ["Basic understanding", "Advanced technique", "Historical context", "Future application"],
    0, "This covers the fundamental concept."⟩]

/-- The single-question fallback of `generate_quiz_questions` in
`profexa.py`. -/
def profexa_quiz_fallback (subtopic : String) : List QuizQuestion :=
  [⟨"What is the main concept of " ++ subtopic ++ "?",
    ["Option A", "Option B", "Option C", "Option D"],
    0, "This is the correct answer because..."⟩]

/-- Embeds `generate_quiz_questions` of `ai_teacher_app.py`: on success the
parsed list truncated to seven (`questions[:7]`), on any exception the
one-question fallback. -/
def generate_quiz_questions (modelOutput : Option (List QuizQuestion))
    (subtopic : String) : List QuizQuestion :=
  match modelOutput with
  | some questions => questions.take 7
  | none => quiz_fallback subtopic

/-- Embeds `generate_quiz_questions` of `profexa.py`: the success path
returns the parsed list unchanged (no truncation), the failure path the
one-question fallback. -/
def profexa_generate_quiz_questions (modelOutput : Option (List QuizQuestion))
    (subtopic : String) : List QuizQuestion :=
  match modelOutput with
  | some questions => questions
  | none => profexa_quiz_fallback subtopic

/-! ## Lesson progress bookkeeping. -/

/-- Embeds `assess_response_quality` (both files): `int(...)` of the model
reply clamped by `max(0, min(10, score))`; `5` on any exception.
`modelOutput = some score` is a reply whose text parsed to the integer
`score`. -/
def assess_response_quality (modelOutput : Option Int) : Int :=
  match modelOutput with
  | some score => max 0 (min 10 score)
  | none => 5

/-- Embeds the progress update of one chat turn in `main` (both files):
with `progress_points >= 5` the increment is
`min(progress_points, 100 - learning_progress)` and the sum is clamped by
`min(100, ...)`; otherwise the progress is left unchanged. -/
def update_learning_progress (learning_progress progress_points : Int) : Int :=
  if progress_points ≥ 5 then
    let progress_increment := min progress_points (100 - learning_progress)
    min 100 (learning_progress + progress_increment)
  else learning_progress

/-- A whole lesson: `learning_progress` starts at `0` and each chat turn
assesses the model reply and updates the progress. -/
def chat_progress_run (modelOutputs : List (Option Int)) : Int :=
  modelOutputs.foldl (fun p mo => update_learning_progress p (assess_response_quality mo)) 0

/-! ## Quiz state machine. -/

/-- The quiz-related part of the Streamlit session state. -/
structure QuizState where
  current_question : Nat
  quiz_score : Nat
deriving DecidableEq

/-- Index of the first occurrence of `sel`, mirroring Python
`list.index` on the lists where `sel` occurs. -/
def listIndex (sel : String) : List String → Nat
  | [] => 0
  | x :: xs => if x = sel then 0 else listIndex sel xs + 1

/-- Embeds one submit-answer step of quiz mode in `main` (both files): while
`current_question < len(quiz_questions)`, submitting the selected option
increments the score exactly when its index equals `correct_answer`, and
always advances `current_question` by one. -/
def submit_answer (questions : List QuizQuestion) (st : QuizState) (selected : String) :
    QuizState :=
  if h : st.current_question < questions.length then
    let q := questions.get ⟨st.current_question, h⟩
    ⟨st.current_question + 1,
     if listIndex selected q.options = q.correct_answer then st.quiz_score + 1
     else st.quiz_score⟩
  else st

/-- A whole quiz run from the initial state. -/
def quiz_run (questions : List QuizQuestion) (selections : List String) : QuizState :=
  selections.foldl (submit_answer questions) ⟨0, 0⟩

/-- The `save_learning_session` call made at quiz completion (both files):
mode `quiz`, progress `0`, empty chat history, the accumulated score, and
`len(st.session_state.quiz_questions)` as the total. -/
def complete_quiz_save (db : DB) (now : Nat) (uid : Int) (t s l : String)
    (questions : List QuizQuestion) (st : QuizState) : DB :=
  save_learning_session db now uid t s l "quiz" 0 "[]"
    (st.quiz_score : Int) (questions.length : Int)

/-! ## Supporting lemmas. -/

/-- The key filter accepts exactly the rows with the given logical key. -/
theorem matchesKey_eq_true_iff (uid : Int) (t s l : String) (r : SessionRow) :
    matchesKey uid t s l r = true ↔ sessionKey r = (uid, t, s, l) := by
  simp [matchesKey, sessionKey, Prod.ext_iff, and_assoc]

/-- The UPDATE branch does not touch the key columns. -/
theorem sessionKey_updRow (now : Nat) (p : Int) (ch : String) (qsc qtt : Int) (r : SessionRow) :
    sessionKey (updRow now p ch qsc qtt r) = sessionKey r := rfl

/-- History after an upsert that found a matching row. -/
theorem profexa_save_history_of_find_some {db : DB} {now : Nat} {uid : Int}
    {t s l m : String} {p : Int} {ch : String} {qsc qtt : Int} {ex : SessionRow}
    (hfind : db.learning_history.find? (matchesKey uid t s l) = some ex) :
    (profexa_save_learning_session db now uid t s l m p ch qsc qtt).learning_history =
      db.learning_history.map
        (fun r => if r.id = ex.id then updRow now p ch qsc qtt r else r) := by
  unfold profexa_save_learning_session
  rw [hfind]

/-- History after an upsert that found no matching row. -/
theorem profexa_save_history_of_find_none {db : DB} {now : Nat} {uid : Int}
    {t s l m : String} {p : Int} {ch : String} {qsc qtt : Int}
    (hfind : db.learning_history.find? (matchesKey uid t s l) = none) :
    (profexa_save_learning_session db now uid t s l m p ch qsc qtt).learning_history =
      db.learning_history ++
        [mkSession db.next_session_id now uid t s l m p ch qsc qtt] := by
  unfold profexa_save_learning_session
  rw [hfind]

/-- The upsert never touches the `users` table. -/
theorem profexa_save_users (db : DB) (now : Nat) (uid : Int) (t s l m : String)
    (p : Int) (ch : String) (qsc qtt : Int) :
    (profexa_save_learning_session db now uid t s l m p ch qsc qtt).users = db.users := by
  unfold profexa_save_learning_session
  cases hfind : db.learning_history.find? (matchesKey uid t s l) <;> rfl

/-- With a nonzero `user_id` the guarded save of `ai_teacher_app.py` agrees
with the unguarded save of `profexa.py`. -/
theorem save_eq_profexa_save {uid : Int} (huid : uid ≠ 0) (db : DB) (now : Nat)
    (t s l m : String) (p : Int) (ch : String) (qsc qtt : Int) :
    save_learning_session db now uid t s l m p ch qsc qtt =
      profexa_save_learning_session db now uid t s l m p ch qsc qtt := by
  simp [save_learning_session, huid]

/-- The upsert preserves uniqueness of the logical session key. -/
theorem profexa_save_keys_nodup {db : DB} (now : Nat) (uid : Int) (t s l m : String)
    (p : Int) (ch : String) (qsc qtt : Int)
    (h : (db.learning_history.map sessionKey).Nodup) :
    ((profexa_save_learning_session db now uid t s l m p ch qsc qtt).learning_history.map
        sessionKey).Nodup := by
  cases hfind : db.learning_history.find? (matchesKey uid t s l) with
  | some ex =>
      rw [profexa_save_history_of_find_some hfind, List.map_map]
      have heq : db.learning_history.map
          (sessionKey ∘ fun r => if r.id = ex.id then updRow now p ch qsc qtt r else r) =
          db.learning_history.map sessionKey := by
        apply List.map_congr_left
        intro r _
        by_cases hid : r.id = ex.id <;> simp [hid, Function.comp, sessionKey_updRow]
      rw [heq]
      exact h
  | none =>
      rw [profexa_save_history_of_find_none hfind, List.map_append]
      rw [List.nodup_append]
      refine ⟨h, List.nodup_singleton _, ?_⟩
      intro k hk hk1
      have hkey : k = (uid, t, s, l) := by
        simpa [mkSession, sessionKey] using hk1
      obtain ⟨r, hr, hrk⟩ := List.mem_map.mp hk
      have hnot := List.find?_eq_none.mp hfind r hr
      rw [matchesKey_eq_true_iff] at hnot
      exact hnot (hrk.trans hkey)

/-- `authenticate_user` returns the id of the row whose username and
password hash both match, provided usernames are unique. -/
theorem authenticate_user_eq_id {db : DB} {un pw : String} {u : UserRow}
    (hnodup : (db.users.map UserRow.username).Nodup) (hu : u ∈ db.users)
    (hname : u.username = un) (hhash : u.password_hash = hash_password pw) :
    authenticate_user db un pw = u.id := by
  unfold authenticate_user
  cases hfind : db.users.find? (fun v => v.username == un) with
  | none =>
      exfalso
      have := List.find?_eq_none.mp hfind u hu
      simp [hname] at this
  | some v =>
      have hvmem := List.mem_of_find?_eq_some hfind
      have hvname : v.username = un := by simpa using List.find?_some hfind
      have hvu : v = u :=
        List.inj_on_of_nodup_map hnodup hvmem hu (by rw [hvname, hname])
      subst hvu
      show (if verify_password pw v.password_hash then v.id else -1) = v.id
      rw [hhash]
      simp [verify_password]

/-- `authenticate_user` returns `-1` when no row carries both the username
and the matching password hash. -/
theorem authenticate_user_eq_neg_one {db : DB} {un pw : String}
    (hno : ∀ u ∈ db.users, ¬(u.username = un ∧ u.password_hash = hash_password pw)) :
    authenticate_user db un pw = -1 := by
  unfold authenticate_user
  cases hfind : db.users.find? (fun v => v.username == un) with
  | none => rfl
  | some v =>
      have hvmem := List.mem_of_find?_eq_some hfind
      have hvname : v.username = un := by simpa using List.find?_some hfind
      have hvh : verify_password pw v.password_hash = false := by
        simp only [verify_password, beq_eq_false_iff_ne, ne_eq]
        intro hh
        exact hno v hvmem ⟨hvname, hh.symm⟩
      simp [hvh]

/-- `authenticate_user` never returns `0` when all stored ids are positive
(as the AUTOINCREMENT primary key guarantees). -/
theorem authenticate_user_ne_zero (db : DB) (un pw : String)
    (hpos : ∀ u ∈ db.users, 0 < u.id) :
    authenticate_user db un pw ≠ 0 := by
  unfold authenticate_user
  cases hfind : db.users.find? (fun v => v.username == un) with
  | none =>
      show (-1 : Int) ≠ 0
      decide
  | some v =>
      have hvmem := List.mem_of_find?_eq_some hfind
      have := hpos v hvmem
      show (if verify_password pw v.password_hash then v.id else -1) ≠ 0
      split_ifs <;> omega

/-- `assess_response_quality` always lands in `[0, 10]`. -/
theorem assess_response_quality_bounds (mo : Option Int) :
    0 ≤ assess_response_quality mo ∧ assess_response_quality mo ≤ 10 := by
  cases mo with
  | none => exact ⟨by decide, by decide⟩
  | some s =>
      simp only [assess_response_quality]
      constructor
      · exact le_max_left 0 _
      · rw [max_le_iff]
        exact ⟨by norm_num, min_le_left 10 s⟩

/-- One chat turn keeps the progress inside `[0, 100]` and never lowers it. -/
theorem update_learning_progress_bounds (p pts : Int) (h0 : 0 ≤ p) (h1 : p ≤ 100) :
    0 ≤ update_learning_progress p pts ∧ update_learning_progress p pts ≤ 100 ∧
      p ≤ update_learning_progress p pts := by
  unfold update_learning_progress
  split_ifs with hpts
  · rw [min_def, min_def]
    split_ifs <;> omega
  · exact ⟨h0, h1, le_refl p⟩

/-- A score below `5` leaves the progress unchanged. -/
theorem update_learning_progress_of_lt (p pts : Int) (h : pts < 5) :
    update_learning_progress p pts = p := by
  unfold update_learning_progress
  rw [if_neg (by omega)]

/-- Progress stays inside `[0, 100]` along any run of chat turns. -/
theorem chat_progress_foldl_bounds (mos : List (Option Int)) :
    ∀ p : Int, 0 ≤ p → p ≤ 100 →
      0 ≤ mos.foldl (fun q mo => update_learning_progress q (assess_response_quality mo)) p ∧
        mos.foldl (fun q mo => update_learning_progress q (assess_response_quality mo)) p ≤ 100 := by
  induction mos with
  | nil => exact fun p h0 h1 => ⟨h0, h1⟩
  | cons mo mos ih =>
      intro p h0 h1
      simp only [List.foldl_cons]
      obtain ⟨g0, g1, _⟩ :=
        update_learning_progress_bounds p (assess_response_quality mo) h0 h1
      exact ih _ g0 g1

/-- One quiz step keeps `score <= current <= number of questions`. -/
theorem submit_answer_bounds (qs : List QuizQuestion) (st : QuizState) (sel : String)
    (h1 : st.quiz_score ≤ st.current_question) (h2 : st.current_question ≤ qs.length) :
    (submit_answer qs st sel).quiz_score ≤ (submit_answer qs st sel).current_question ∧
      (submit_answer qs st sel).current_question ≤ qs.length := by
  unfold submit_answer
  split
  · next h => dsimp only; split_ifs <;> constructor <;> omega
  · exact ⟨h1, h2⟩

/-- The quiz invariant holds along any run of submitted answers. -/
theorem quiz_foldl_bounds (qs : List QuizQuestion) (sels : List String) :
    ∀ st : QuizState, st.quiz_score ≤ st.current_question → st.current_question ≤ qs.length →
      (sels.foldl (submit_answer qs) st).quiz_score ≤
          (sels.foldl (submit_answer qs) st).current_question ∧
        (sels.foldl (submit_answer qs) st).current_question ≤ qs.length := by
  induction sels with
  | nil => exact fun st h1 h2 => ⟨h1, h2⟩
  | cons a as ih =>
      intro st h1 h2
      simp only [List.foldl_cons]
      obtain ⟨g1, g2⟩ := submit_answer_bounds qs st a h1 h2
      exact ih _ g1 g2

/-! ## Claim theorems. -/

/-- C7: `hash_password` is the hex digest of a single unsalted SHA-256 of
the UTF-8 encoded password, and verification round-trips:
`verify_password p (hash_password p)` always holds, and
`verify_password p h` holds exactly when `h = hash_password p`. -/
theorem C7_hash_password_roundtrip :
    (∀ p : String, hash_password p = sha256hex (utf8Encode p)) ∧
    (∀ p : String, verify_password p (hash_password p) = true) ∧
    (∀ p h : String, verify_password p h = true ↔ h = hash_password p) := by
  refine ⟨fun p => rfl, fun p => ?_, fun p h => ?_⟩
  · simp [verify_password]
  · show (hash_password p == h) = true ↔ h = hash_password p
    rw [beq_iff_eq]
    exact eq_comm

/-- C4 counterexample: when the model call or JSON parsing fails, the
fallback of `generate_quiz_questions` (`ai_teacher_app.py`) is a single
question, not seven. -/
theorem C4_counterexample :
    ¬ ((generate_quiz_questions none "Fractions").length = 7) := by
  decide

/-- C4 (amended): `generate_quiz_questions` in `ai_teacher_app.py` returns
`min 7` questions on success and exactly one fallback question on failure;
in `profexa.py` the success path returns the parsed list untruncated and the
failure path also returns exactly one fallback question. -/
theorem C4_quiz_question_count :
    ∀ subtopic : String,
      (generate_quiz_questions none subtopic).length = 1 ∧
      (∀ qs : List QuizQuestion,
        (generate_quiz_questions (some qs) subtopic).length = min 7 qs.length) ∧
      (profexa_generate_quiz_questions none subtopic).length = 1 ∧
      (∀ qs : List QuizQuestion, profexa_generate_quiz_questions (some qs) subtopic = qs) := by
  intro subtopic
  refine ⟨rfl, fun qs => ?_, rfl, fun qs => rfl⟩
  simp [generate_quiz_questions]

/-- C6 counterexample: in `profexa.py` the failure path shuffles the
fallback before returning it, so for the shuffle outcome that reverses the
list the result is not the fixed literal list. -/
theorem C6_counterexample :
    ¬ (profexa_generate_popular_subtopics none List.reverse "middle" =
        fallback_subtopics "middle") := by
  decide

/-- C6 (amended): on any failure `generate_popular_subtopics` returns the
fallback literal of five subtopics for the level (the middle list for an
unrecognized level) in `ai_teacher_app.py`, and a `random.shuffle`
permutation of that same literal in `profexa.py`; on success both return at
most the first five parsed entries. -/
theorem C6_subtopics_fallback :
    ∀ learning_level : String,
      generate_popular_subtopics none learning_level = fallback_subtopics learning_level ∧
      (∀ qs : List String,
        generate_popular_subtopics (some qs) learning_level = qs.take 5) ∧
      (∀ shuffle : List String → List String, (∀ lst, (shuffle lst).Perm lst) →
        (profexa_generate_popular_subtopics none shuffle learning_level).Perm
          (fallback_subtopics learning_level)) ∧
      (∀ (qs : List String) (shuffle : List String → List String),
        profexa_generate_popular_subtopics (some qs) shuffle learning_level = qs.take 5) ∧
      (fallback_subtopics learning_level).length = 5 ∧
      (learning_level ∉ (["elementary", "middle", "high", "adult"] : List String) →
        fallback_subtopics learning_level = fallback_subtopics "middle") := by
  intro lvl
  refine ⟨rfl, fun qs => rfl, fun shuffle hs => hs _, fun qs shuffle => rfl, ?_, ?_⟩
  · unfold fallback_subtopics
    split_ifs <;> rfl
  · intro hmem
    simp only [List.mem_cons, List.not_mem_nil, or_false, not_or] at hmem
    obtain ⟨h1, h2, h3, h4⟩ := hmem
    unfold fallback_subtopics
    rw [if_neg h1, if_neg h2, if_neg h3, if_neg h4]
    rfl

/-- C6 witness: the shuffled fallback is a permutation of the literal, and
an unrecognized level gets the middle list. -/
theorem C6_witness :
    (profexa_generate_popular_subtopics none List.reverse "middle").Perm
        (fallback_subtopics "middle") ∧
      fallback_subtopics "kindergarten" = fallback_subtopics "middle" :=
  ⟨(C6_subtopics_fallback "middle").2.2.1 List.reverse (fun lst => lst.reverse_perm),
   (C6_subtopics_fallback "kindergarten").2.2.2.2.2 (by decide)⟩

/-- C8: `assess_response_quality` always returns an integer in `[0, 10]`
(with `5` on any exception); a chat turn keeps `learning_progress` in
`[0, 100]`, never lowers it, leaves it unchanged when the score is below
`5`, and a whole lesson starting from `0` stays inside `[0, 100]`. -/
theorem C8_progress_invariant :
    (∀ mo : Option Int,
      0 ≤ assess_response_quality mo ∧ assess_response_quality mo ≤ 10) ∧
    (∀ p pts : Int, 0 ≤ p → p ≤ 100 →
      0 ≤ update_learning_progress p pts ∧ update_learning_progress p pts ≤ 100 ∧
        p ≤ update_learning_progress p pts) ∧
    (∀ p pts : Int, pts < 5 → update_learning_progress p pts = p) ∧
    (∀ mos : List (Option Int),
      0 ≤ chat_progress_run mos ∧ chat_progress_run mos ≤ 100) :=
  ⟨assess_response_quality_bounds,
   update_learning_progress_bounds,
   update_learning_progress_of_lt,
   fun mos => chat_progress_foldl_bounds mos 0 (by decide) (by decide)⟩

/-- C8 witness: a turn at progress `50` with score `7` obeys the bounds, and
a score of `3` leaves progress `40` unchanged. -/
theorem C8_witness :
    (0 ≤ update_learning_progress 50 7 ∧ update_learning_progress 50 7 ≤ 100 ∧
      (50 : Int) ≤ update_learning_progress 50 7) ∧
      update_learning_progress 40 3 = 40 :=
  ⟨C8_progress_invariant.2.1 50 7 (by decide) (by decide),
   C8_progress_invariant.2.2.1 40 3 (by decide)⟩

/-- C9: `delete_learning_session` returns `True`, leaves the `users` table
untouched, and removes exactly the `learning_history` rows whose id equals
the argument (no cascade across the foreign key). -/
theorem C9_delete_frame :
    ∀ (db : DB) (sid : Int),
      (delete_learning_session db sid).1 = true ∧
      (delete_learning_session db sid).2.users = db.users ∧
      (∀ r ∈ (delete_learning_session db sid).2.learning_history,
        r ∈ db.learning_history ∧ r.id ≠ sid) ∧
      (∀ r ∈ db.learning_history, r.id ≠ sid →
        r ∈ (delete_learning_session db sid).2.learning_history) := by
  intro db sid
  refine ⟨rfl, rfl, ?_, ?_⟩
  · intro r hr
    simp only [delete_learning_session, List.mem_filter, Bool.not_eq_eq_eq_not,
      Bool.not_true, beq_eq_false_iff_ne, ne_eq] at hr
    exact ⟨hr.1, hr.2⟩
  · intro r hr hne
    simp only [delete_learning_session, List.mem_filter]
    refine ⟨hr, ?_⟩
    simp [hne]

/-- C9 witness: deleting id `1` from a two-row history keeps the row with
id `2` and the single user row. -/
theorem C9_witness :
    (⟨2, 1, "Math", "Fractions", "middle", "learn", 0, "[]", 0, 0, 0, 0⟩ : SessionRow) ∈
      (delete_learning_session
        ⟨[⟨1, "alice", "h"⟩],
         [⟨1, 1, "Math", "Fractions", "middle", "quiz", 0, "[]", 3, 7, 0, 0⟩,
          ⟨2, 1, "Math", "Fractions", "middle", "learn", 0, "[]", 0, 0, 0, 0⟩],
         2, 3⟩ 1).2.learning_history :=
  (C9_delete_frame _ 1).2.2.2 _ (by decide) (by decide)

/-- C1 counterexample: in `ai_teacher_app.py` a call with falsy `user_id`
(the guest guard `if not user_id: return`) is a no-op, although no row with
the key exists, so no row is inserted. -/
theorem C1_counterexample :
    save_learning_session ⟨[], [], 1, 1⟩ 7 0 "Math" "Fractions" "middle" "learn" 10 "[]" 0 0 =
        ⟨[], [], 1, 1⟩ ∧
      ([] : List SessionRow).find? (matchesKey 0 "Math" "Fractions" "middle") = none := by
  constructor
  · rfl
  · rfl

/-- C1 (amended): in `ai_teacher_app.py` a call with `user_id = 0`/`None`
saves nothing; every call with nonzero `user_id` (and hence every call in
`profexa.py`, whose body is the unguarded upsert) leaves `users` untouched
and upserts: when a row with the key exists it is updated in place with the
new progress, chat history, scores and timestamp and no row is inserted,
otherwise exactly one new row with that key is inserted; uniqueness of the
logical key is preserved. -/
theorem C1_save_upsert :
    ∀ (db : DB) (now : Nat) (uid : Int) (t s l m : String) (p : Int) (ch : String)
      (qsc qtt : Int),
      (db.learning_history.map SessionRow.id).Nodup →
      (uid = 0 → save_learning_session db now uid t s l m p ch qsc qtt = db) ∧
      (save_learning_session db now uid t s l m p ch qsc qtt).users = db.users ∧
      (uid ≠ 0 → ∀ ex, db.learning_history.find? (matchesKey uid t s l) = some ex →
        (save_learning_session db now uid t s l m p ch qsc qtt).learning_history.length =
            db.learning_history.length ∧
          updRow now p ch qsc qtt ex ∈
            (save_learning_session db now uid t s l m p ch qsc qtt).learning_history ∧
          (∀ r ∈ db.learning_history, r ≠ ex →
            r ∈ (save_learning_session db now uid t s l m p ch qsc qtt).learning_history)) ∧
      (uid ≠ 0 → db.learning_history.find? (matchesKey uid t s l) = none →
        (save_learning_session db now uid t s l m p ch qsc qtt).learning_history =
          db.learning_history ++ [mkSession db.next_session_id now uid t s l m p ch qsc qtt]) ∧
      ((db.learning_history.map sessionKey).Nodup →
        ((save_learning_session db now uid t s l m p ch qsc qtt).learning_history.map
            sessionKey).Nodup) := by
  intro db now uid t s l m p ch qsc qtt hids
  refine ⟨?_, ?_, ?_, ?_, ?_⟩
  · intro h0
    simp [save_learning_session, h0]
  · by_cases h0 : uid = 0
    · simp [save_learning_session, h0]
    · rw [save_eq_profexa_save h0]
      exact profexa_save_users db now uid t s l m p ch qsc qtt
  · intro h0 ex hfind
    rw [save_eq_profexa_save h0, profexa_save_history_of_find_some hfind]
    have hexmem := List.mem_of_find?_eq_some hfind
    refine ⟨List.length_map _ _, ?_, ?_⟩
    · have := List.mem_map_of_mem
        (fun r => if r.id = ex.id then updRow now p ch qsc qtt r else r) hexmem
      simpa using this
    · intro r hr hne
      have hid : r.id ≠ ex.id := by
        intro hcontra
        exact hne (List.inj_on_of_nodup_map hids hr hexmem hcontra)
      have := List.mem_map_of_mem
        (fun r => if r.id = ex.id then updRow now p ch qsc qtt r else r) hr
      simpa [hid] using this
  · intro h0 hfind
    rw [save_eq_profexa_save h0]
    exact profexa_save_history_of_find_none hfind
  · intro hkeys
    by_cases h0 : uid = 0
    · simpa [save_learning_session, h0] using hkeys
    · rw [save_eq_profexa_save h0]
      exact profexa_save_keys_nodup now uid t s l m p ch qsc qtt hkeys

/-- C1 witness: saving into an empty history with `user_id = 1` inserts
exactly the one new row. -/
theorem C1_witness :
    (save_learning_session ⟨[], [], 1, 1⟩ 7 1 "Math" "Fractions" "middle" "learn" 10 "[]" 0
        0).learning_history =
      [] ++ [mkSession 1 7 1 "Math" "Fractions" "middle" "learn" 10 "[]" 0 0] :=
  (C1_save_upsert ⟨[], [], 1, 1⟩ 7 1 "Math" "Fractions" "middle" "learn" 10 "[]" 0 0
    (by decide)).2.2.2.1 (by decide) rfl

/-- C2: `authenticate_user` returns the stored id of the row matching the
username when the SHA-256 hash of the supplied password equals the stored
hash, and `-1` whenever no row carries both the username and that hash; the
embedding is a pure read of the database. -/
theorem C2_authenticate_user :
    ∀ (db : DB) (username password : String),
      ((db.users.map UserRow.username).Nodup →
        ∀ u ∈ db.users, u.username = username →
          u.password_hash = hash_password password →
          authenticate_user db username password = u.id) ∧
      ((∀ u ∈ db.users,
          ¬(u.username = username ∧ u.password_hash = hash_password password)) →
        authenticate_user db username password = -1) :=
  fun _ _ _ =>
    ⟨fun hnodup _ hu hname hhash => authenticate_user_eq_id hnodup hu hname hhash,
     fun hno => authenticate_user_eq_neg_one hno⟩

/-- C2 witness: with one stored user, the right password yields the stored
id and a wrong password yields `-1`. -/
theorem C2_witness :
    authenticate_user ⟨[⟨1, "alice", hash_password "pw"⟩], [], 2, 1⟩ "alice" "pw" = 1 ∧
      authenticate_user ⟨[⟨1, "alice", hash_password "pw"⟩], [], 2, 1⟩ "alice" "wrong" = -1 :=
  ⟨(C2_authenticate_user ⟨[⟨1, "alice", hash_password "pw"⟩], [], 2, 1⟩ "alice" "pw").1
      (by decide) ⟨1, "alice", hash_password "pw"⟩ (List.mem_singleton.mpr rfl) rfl rfl,
   (C2_authenticate_user ⟨[⟨1, "alice", hash_password "pw"⟩], [], 2, 1⟩ "alice" "wrong").2
      (by decide)⟩

/-- C3: submitting any non-empty username and password marks the session
authenticated, because the handler tests `authenticate_user` with integer
truthiness (`if user_id:`) and the result is never `0` (stored ids are
positive, the failure sentinel is `-1`); with invalid credentials the
session still becomes authenticated with `user_id = -1`. -/
theorem C3_login_truthiness :
    ∀ (db : DB) (st : SessionAuth) (username password : String),
      username ≠ "" → password ≠ "" → (∀ u ∈ db.users, 0 < u.id) →
      (login_submit db st username password).authenticated = true ∧
      ((∀ u ∈ db.users,
          ¬(u.username = username ∧ u.password_hash = hash_password password)) →
        login_submit db st username password = ⟨true, some (-1), username⟩) := by
  intro db st un pw hun hpw hpos
  have hne := authenticate_user_ne_zero db un pw hpos
  constructor
  · simp [login_submit, hun, hpw, hne]
  · intro hno
    have hval := authenticate_user_eq_neg_one hno
    simp [login_submit, hun, hpw, hval]

/-- C3 witness: a wrong password against a stored user still authenticates
the session, with `user_id = -1`. -/
theorem C3_witness :
    login_submit ⟨[⟨3, "bob", hash_password "pw"⟩], [], 4, 1⟩ ⟨false, none, ""⟩ "bob" "wrong" =
      ⟨true, some (-1), "bob"⟩ :=
  (C3_login_truthiness ⟨[⟨3, "bob", hash_password "pw"⟩], [], 4, 1⟩ ⟨false, none, ""⟩
    "bob" "wrong" (by decide) (by decide) (by decide)).2 (by decide)

/-- C5: `create_user` inserts exactly one row with the hashed password and
returns `True` when the username is fresh; with an existing username the
UNIQUE constraint fires, it returns `False` and the table is unchanged;
username uniqueness is preserved by every call. -/
theorem C5_create_user_unique :
    ∀ (db : DB) (username password : String),
      ((∀ u ∈ db.users, u.username ≠ username) →
        create_user db username password =
          (true, { db with
                   users := db.users ++ [⟨db.next_user_id, username, hash_password password⟩],
                   next_user_id := db.next_user_id + 1 })) ∧
      ((∃ u ∈ db.users, u.username = username) →
        create_user db username password = (false, db)) ∧
      ((db.users.map UserRow.username).Nodup →
        ((create_user db username password).2.users.map UserRow.username).Nodup) := by
  intro db un pw
  refine ⟨?_, ?_, ?_⟩
  · intro hno
    unfold create_user
    rw [if_neg]
    simp only [List.any_eq_true, beq_iff_eq, not_exists, not_and]
    exact fun u hu => hno u hu
  · rintro ⟨u, hu, hname⟩
    unfold create_user
    rw [if_pos]
    simp only [List.any_eq_true, beq_iff_eq]
    exact ⟨u, hu, hname⟩
  · intro hnodup
    unfold create_user
    split_ifs with hany
    · exact hnodup
    · simp only [List.any_eq_true, beq_iff_eq, not_exists, not_and] at hany
      simp only [List.map_append, List.map_cons, List.map_nil]
      rw [List.nodup_append]
      refine ⟨hnodup, List.nodup_singleton _, ?_⟩
      intro x hx hx1
      obtain ⟨u, hu, hux⟩ := List.mem_map.mp hx
      have hx2 : x = un := by simpa using hx1
      exact hany u hu (hux.trans hx2)

/-- C5 witness: creating a fresh user inserts its row, and re-creating the
same username fails and leaves the table unchanged. -/
theorem C5_witness :
    create_user ⟨[], [], 1, 1⟩ "alice" "pw" =
        (true, ⟨[⟨1, "alice", hash_password "pw"⟩], [], 2, 1⟩) ∧
      create_user ⟨[⟨1, "alice", hash_password "pw"⟩], [], 2, 1⟩ "alice" "other" =
        (false, ⟨[⟨1, "alice", hash_password "pw"⟩], [], 2, 1⟩) :=
  ⟨(C5_create_user_unique ⟨[], [], 1, 1⟩ "alice" "pw").1 (by decide),
   (C5_create_user_unique ⟨[⟨1, "alice", hash_password "pw"⟩], [], 2, 1⟩ "alice" "other").2.1
     ⟨⟨1, "alice", hash_password "pw"⟩, List.mem_singleton.mpr rfl, rfl⟩⟩

/-- C10: each submitted quiz answer advances `current_question` by one and
increments `quiz_score` exactly when the index of the selected option
equals `correct_answer`; along any run from the initial state
`quiz_score <= current_question <= number of questions`; and the completion
save persists `quiz_total = number of questions` on both upsert branches:
with no prior row for the key exactly the new row is inserted, with a prior
row (an earlier learn session or quiz retake) that row is updated in place,
and in every case the resulting history contains a row carrying the final
score and `quiz_total = number of questions`. -/
theorem C10_quiz_scoring :
    (∀ (qs : List QuizQuestion) (st : QuizState) (sel : String)
      (h : st.current_question < qs.length),
      sel ∈ qs[st.current_question].options →
      (submit_answer qs st sel).current_question = st.current_question + 1 ∧
        (listIndex sel qs[st.current_question].options = qs[st.current_question].correct_answer →
          (submit_answer qs st sel).quiz_score = st.quiz_score + 1) ∧
        (listIndex sel qs[st.current_question].options ≠ qs[st.current_question].correct_answer →
          (submit_answer qs st sel).quiz_score = st.quiz_score)) ∧
    (∀ (qs : List QuizQuestion) (sels : List String),
      (quiz_run qs sels).quiz_score ≤ (quiz_run qs sels).current_question ∧
        (quiz_run qs sels).current_question ≤ qs.length) ∧
    (∀ (db : DB) (now : Nat) (uid : Int) (t s l : String) (qs : List QuizQuestion)
      (st : QuizState),
      uid ≠ 0 →
      db.learning_history.find? (matchesKey uid t s l) = none →
      (complete_quiz_save db now uid t s l qs st).learning_history =
        db.learning_history ++
          [mkSession db.next_session_id now uid t s l "quiz" 0 "[]"
            (st.quiz_score : Int) (qs.length : Int)]) ∧
    (∀ (db : DB) (now : Nat) (uid : Int) (t s l : String) (qs : List QuizQuestion)
      (st : QuizState) (ex : SessionRow),
      uid ≠ 0 →
      db.learning_history.find? (matchesKey uid t s l) = some ex →
      updRow now 0 "[]" (st.quiz_score : Int) (qs.length : Int) ex ∈
        (complete_quiz_save db now uid t s l qs st).learning_history) ∧
    (∀ (db : DB) (now : Nat) (uid : Int) (t s l : String) (qs : List QuizQuestion)
      (st : QuizState),
      uid ≠ 0 →
      ∃ r ∈ (complete_quiz_save db now uid t s l qs st).learning_history,
        r.quiz_score = (st.quiz_score : Int) ∧ r.quiz_total = (qs.length : Int)) := by
  refine ⟨?_, ?_, ?_, ?_, ?_⟩
  · intro qs st sel h _
    unfold submit_answer
    rw [dif_pos h]
    refine ⟨rfl, fun hidx => ?_, fun hidx => ?_⟩
    · simp [hidx]
    · simp [hidx]
  · intro qs sels
    exact quiz_foldl_bounds qs sels ⟨0, 0⟩ (Nat.le_refl 0) (Nat.zero_le _)
  · intro db now uid t s l qs st huid hfind
    unfold complete_quiz_save
    rw [save_eq_profexa_save huid]
    exact profexa_save_history_of_find_none hfind
  · intro db now uid t s l qs st ex huid hfind
    unfold complete_quiz_save
    rw [save_eq_profexa_save huid, profexa_save_history_of_find_some hfind]
    have hexmem := List.mem_of_find?_eq_some hfind
    have := List.mem_map_of_mem
      (fun r => if r.id = ex.id then
        updRow now 0 "[]" (st.quiz_score : Int) (qs.length : Int) r else r) hexmem
    simpa using this
  · intro db now uid t s l qs st huid
    cases hfind : db.learning_history.find? (matchesKey uid t s l) with
    | some ex =>
        refine ⟨updRow now 0 "[]" (st.quiz_score : Int) (qs.length : Int) ex, ?_, rfl, rfl⟩
        unfold complete_quiz_save
        rw [save_eq_profexa_save huid, profexa_save_history_of_find_some hfind]
        have hexmem := List.mem_of_find?_eq_some hfind
        have := List.mem_map_of_mem
          (fun r => if r.id = ex.id then
            updRow now 0 "[]" (st.quiz_score : Int) (qs.length : Int) r else r) hexmem
        simpa using this
    | none =>
        refine ⟨mkSession db.next_session_id now uid t s l "quiz" 0 "[]"
          (st.quiz_score : Int) (qs.length : Int), ?_, rfl, rfl⟩
        unfold complete_quiz_save
        rw [save_eq_profexa_save huid, profexa_save_history_of_find_none hfind]
        simp

/-- C10 witness: with one question whose correct index is `1`, selecting the
second option scores a point and advances the counter. -/
theorem C10_witness :
    (submit_answer [⟨"Q", ["A", "B"], 1, "E"⟩] ⟨0, 0⟩ "B").current_question = 0 + 1 ∧
      (submit_answer [⟨"Q", ["A", "B"], 1, "E"⟩] ⟨0, 0⟩ "B").quiz_score = 0 + 1 :=
  ⟨(C10_quiz_scoring.1 [⟨"Q", ["A", "B"], 1, "E"⟩] ⟨0, 0⟩ "B" (by decide) (by decide)).1,
   (C10_quiz_scoring.1 [⟨"Q", ["A", "B"], 1, "E"⟩] ⟨0, 0⟩ "B" (by decide) (by decide)).2.1
     (by decide)⟩

end Profexa
